import Mathlib

/-!
# Verification of the Project Nexus animation / viewport core

Shallow embedding of the interactive viewport and animation engine of
`project-nexus` (`src/utils/animations.ts`, `src/core/GalaxyView.ts`),
together with theorems settling the specification claims about it.

Modelling conventions:
* JavaScript numbers are modelled by `ℚ` where the code's arithmetic is
  field arithmetic (interpolation, spring physics, camera transforms), and
  by `ℝ` where the code calls transcendental library functions
  (`Math.cos`, `Math.sqrt`, `Math.pow` in the easing library and the
  hit tester).
* `Date.now()` timestamps are integer milliseconds (`ℤ`).
* JavaScript `Map` objects (insertion ordered, unique keys) are modelled
  as association lists; plain objects as association lists of
  string-keyed entries.
* Update/completion callbacks are modelled by their observable behaviour:
  a flag saying whether the callback throws when invoked, plus a numeric
  tag identifying the callback instance so that "which callback fired"
  is visible in an event trace.  Exceptions propagate as an `Option`
  error component threaded through the scheduler exactly along the
  source's (absent) try/catch structure.
-/

namespace Nexus

/-! ## AnimatableValue (`Animation.interpolate`, animations.ts lines 270-292)

`from`/`to` value trees: a scalar number, an ordered sequence, or a keyed
mapping; `undef` models JavaScript `undefined` (produced by an
out-of-range index access `to[index]`). -/

inductive Value : Type where
  | num : ℚ → Value
  | arr : List Value → Value
  | obj : List (String × Value) → Value
  | undef : Value

/-- First entry with the given key in a keyed mapping (JavaScript object
keys are unique, so "first" is "the" entry); `none` models `key in to`
being false. -/
def lookupKey (k : String) : List (String × Value) → Option Value
  | [] => none
  | (k2, v) :: rest => if k2 = k then some v else lookupKey k rest

mutual

/-- `Animation.interpolate` (animations.ts lines 270-292).
Numbers blend linearly; arrays map element-wise over `from` with
`to[index]` (fallthrough to `return to`, i.e. `undefined`, when `to` is
shorter); the `typeof === 'object'` branch iterates the keys of `from`
and keeps only those also present in `to`.  In the tagged model the
object branch is the mapping/mapping case; every remaining pair of tags
falls through to the final `return to`. -/
def interpolate : Value → Value → ℚ → Value
  | .num a, .num b, progress => .num (a + (b - a) * progress)
  | .arr as, .arr bs, progress => .arr (interpolateElems as bs progress)
  | .obj as, .obj bs, progress => .obj (interpolateEntries as bs progress)
  | _, b, _ => b

/-- `from.map((value, index) => interpolate(value, to[index], progress))`:
element-wise over `from`, with `undefined` supplied once `to` runs out. -/
def interpolateElems : List Value → List Value → ℚ → List Value
  | [], _, _ => []
  | a :: as, [], progress =>
      interpolate a .undef progress :: interpolateElems as [] progress
  | a :: as, b :: bs, progress =>
      interpolate a b progress :: interpolateElems as bs progress

/-- `for (const key in from) if (key in to) result[key] = interpolate(...)`:
keys of `from` that also occur in `to` are interpolated, keys of `from`
absent from `to` are dropped, keys only in `to` are never visited. -/
def interpolateEntries :
    List (String × Value) → List (String × Value) → ℚ → List (String × Value)
  | [], _, _ => []
  | (k, v) :: as, bs, progress =>
    match lookupKey k bs with
    | some w => (k, interpolate v w progress) :: interpolateEntries as bs progress
    | none => interpolateEntries as bs progress

end

/-! ## Animation (animations.ts lines 178-320)

Callbacks (`onUpdate`, `onComplete`) are modelled by observable behaviour:
`onUpdateThrows` / `onCompleteThrows` say whether the callback throws when
invoked, `hasOnComplete` whether a completion callback was supplied at
all, and `tag` identifies the callback instance in the event trace. -/

structure AnimationConfig where
  id : Option String := none
  duration : ℚ := 1000
  «from» : Value := .num 0
  «to» : Value := .num 1
  easing : ℚ → ℚ := fun t => t
  onUpdateThrows : Bool := false
  hasOnComplete : Bool := false
  onCompleteThrows : Bool := false
  tag : ℕ := 0

structure Animation where
  id : String
  startTime : ℤ
  duration : ℚ
  «from» : Value
  «to» : Value
  easing : ℚ → ℚ
  onUpdateThrows : Bool
  hasOnComplete : Bool
  onCompleteThrows : Bool
  tag : ℕ
  isRunning : Bool := false
  isPaused : Bool := false
  pausedTime : ℤ := 0

/-- The `Animation` constructor (lines 191-202): copies the configuration
(`id` falling back to a fresh random id, a missing easing falling back to
linear, which the config model resolves before this point) and records
`startTime = Date.now()`.  Note: there is no validation of `duration`. -/
def Animation.fromConfig (config : AnimationConfig) (now : ℤ)
    (freshId : String) : Animation :=
  { id := config.id.getD freshId
    startTime := now
    duration := config.duration
    «from» := config.«from»
    «to» := config.«to»
    easing := config.easing
    onUpdateThrows := config.onUpdateThrows
    hasOnComplete := config.hasOnComplete
    onCompleteThrows := config.onCompleteThrows
    tag := config.tag }

/-- `start()` (lines 207-211). -/
def Animation.start (a : Animation) (now : ℤ) : Animation :=
  { a with isRunning := true, isPaused := false, startTime := now }

/-- `pause()` (lines 216-221): freezes by recording elapsed-so-far. -/
def Animation.pause (a : Animation) (now : ℤ) : Animation :=
  if a.isRunning && !a.isPaused then
    { a with isPaused := true, pausedTime := now - a.startTime }
  else a

/-- `resume()` (lines 226-231): shifts the time origin by the recorded
elapsed offset. -/
def Animation.resume (a : Animation) (now : ℤ) : Animation :=
  if a.isRunning && a.isPaused then
    { a with isPaused := false, startTime := now - a.pausedTime }
  else a

/-- `stop()` (lines 236-239). -/
def Animation.stop (a : Animation) : Animation :=
  { a with isRunning := false, isPaused := false }

/-- `const elapsed = Date.now() - this.startTime` (line 249). -/
def Animation.elapsedAt (a : Animation) (now : ℤ) : ℚ :=
  ((now - a.startTime : ℤ) : ℚ)

/-- `const progress = Math.min(elapsed / this.duration, 1)` (line 250). -/
def Animation.progressAt (a : Animation) (now : ℤ) : ℚ :=
  min (a.elapsedAt now / a.duration) 1

/-- `this.interpolate(this.from, this.to, this.easing(progress))`
(lines 251-253), shared verbatim by `update` and `getProgress`. -/
def Animation.currentValue (a : Animation) (now : ℤ) : Value :=
  interpolate a.«from» a.«to» (a.easing (a.progressAt now))

/-- Events observable from one update call. -/
inductive Event : Type where
  | updated (tag : ℕ) (value : Value)
  | completed (tag : ℕ)

/-- Result of `Animation.update`: the boolean the method returns (`true`
keeps the animation alive), the animation's state after the call (object
mutation persists even when a callback throws), the callback invocations
that ran, and the exception, if any, that propagated (the source has no
try/catch around either callback). -/
structure UpdateResult where
  keepAlive : Bool
  anim : Animation
  events : List Event
  thrown : Option String

/-- `Animation.update` (lines 244-265).  Not running or paused: return
`true` untouched.  Otherwise compute the eased interpolated value and
invoke `onUpdate` (a throw propagates here, before any state change).
If progress reached 1: clear `isRunning`, invoke `onComplete` when
present (a throw propagates after `isRunning` was already cleared) and
return `false`; otherwise return `true`.  The `keepAlive` field is
meaningless when `thrown` is set (the method never returned). -/
def Animation.update (a : Animation) (now : ℤ) : UpdateResult :=
  if !a.isRunning || a.isPaused then ⟨true, a, [], none⟩
  else
    let value := a.currentValue now
    if a.onUpdateThrows then ⟨true, a, [], some "onUpdate threw"⟩
    else if 1 ≤ a.progressAt now then
      let a' := { a with isRunning := false }
      if a.hasOnComplete then
        if a.onCompleteThrows then
          ⟨true, a', [.updated a.tag value], some "onComplete threw"⟩
        else ⟨false, a', [.updated a.tag value, .completed a.tag], none⟩
      else ⟨false, a', [.updated a.tag value], none⟩
    else ⟨true, a, [.updated a.tag value], none⟩

/-- `getProgress()` (lines 311-319): a fixed `{opacity: 1, scale: 1}`
whenever the animation is not running, else the current eased value. -/
def Animation.getProgress (a : Animation) (now : ℤ) : Value :=
  if !a.isRunning then .obj [("opacity", .num 1), ("scale", .num 1)]
  else a.currentValue now

/-! ## AnimationManager (animations.ts lines 325-453)

The registry is a JavaScript `Map` (insertion ordered, unique keys),
modelled as an association list; `rafId` only names the pending frame
callback and is dropped from the model (one model step is one tick). -/

structure AnimationManager where
  animations : List (String × Animation) := []
  isRunning : Bool := false

/-- `this.animations.has(name)`. -/
def AnimationManager.hasName (m : AnimationManager) (name : String) : Bool :=
  m.animations.any (fun kv => kv.1 = name)

/-- `stop(name)` (lines 362-368): the named animation (if any) is
stopped and deleted.  A `Map` holds each key at most once, so deleting
the key is filtering out every entry carrying it. -/
def AnimationManager.stop (m : AnimationManager) (name : String) :
    AnimationManager :=
  { m with animations := m.animations.filter (fun kv => kv.1 ≠ name) }

/-- `pause(name)` (lines 373-378): in-place `pause()` on the named
animation. -/
def AnimationManager.pause (m : AnimationManager) (name : String) (now : ℤ) :
    AnimationManager :=
  let step := fun (kv : String × Animation) =>
    if kv.1 = name then (kv.1, kv.2.pause now) else kv
  { m with animations := m.animations.map step }

/-- `resume(name)` (lines 383-388). -/
def AnimationManager.resume (m : AnimationManager) (name : String) (now : ℤ) :
    AnimationManager :=
  let step := fun (kv : String × Animation) =>
    if kv.1 = name then (kv.1, kv.2.resume now) else kv
  { m with animations := m.animations.map step }

/-- `stopAll()` (lines 393-396): stop every animation, clear the map. -/
def AnimationManager.stopAll (m : AnimationManager) : AnimationManager :=
  { m with animations := [] }

/-- `pauseAll()` (lines 401-403). -/
def AnimationManager.pauseAll (m : AnimationManager) (now : ℤ) :
    AnimationManager :=
  { m with animations := m.animations.map (fun kv => (kv.1, kv.2.pause now)) }

/-- `resumeAll()` (lines 408-410). -/
def AnimationManager.resumeAll (m : AnimationManager) (now : ℤ) :
    AnimationManager :=
  { m with animations := m.animations.map (fun kv => (kv.1, kv.2.resume now)) }

/-- The `forEach` body of `AnimationManager.update` (lines 428-432):
update each registered animation in iteration order, collecting the
names whose update returned `false` into `toRemove`.  There is no
try/catch: the first exception aborts the iteration — entries already
visited keep their mutated state, entries not yet visited are untouched,
and the pending `toRemove` deletions are abandoned. -/
def updatePass (now : ℤ) : List (String × Animation) →
    List (String × Animation) × List String × List Event × Option String
  | [] => ([], [], [], none)
  | (name, a) :: rest =>
    let r := a.update now
    match r.thrown with
    | some e => ((name, r.anim) :: rest, [], r.events, some e)
    | none =>
      let q := updatePass now rest
      ((name, r.anim) :: q.1,
       if r.keepAlive then q.2.1 else name :: q.2.1,
       r.events ++ q.2.2.1, q.2.2.2)

/-- `AnimationManager.update` (lines 423-441): one tick of the shared
loop.  When no callback throws, the finished animations are deleted and
the loop keeps running (`rafId` rescheduled) iff the registry is still
non-empty; an uncaught exception leaves the registry deletions undone
and propagates to the host. -/
def AnimationManager.update (m : AnimationManager) (now : ℤ) :
    AnimationManager × List Event × Option String :=
  if !m.isRunning then (m, [], none)
  else
    let q := updatePass now m.animations
    match q.2.2.2 with
    | some e => ({ m with animations := q.1 }, q.2.2.1, some e)
    | none =>
      let remaining := q.1.filter (fun kv => !q.2.1.contains kv.1)
      ({ m with animations := remaining, isRunning := !remaining.isEmpty },
       q.2.2.1, none)

/-- `start()` (lines 415-418): flip `isRunning` and run one tick. -/
def AnimationManager.startLoop (m : AnimationManager) (now : ℤ) :
    AnimationManager × List Event × Option String :=
  AnimationManager.update { m with isRunning := true } now

/-- `animate(name, config)` (lines 333-357): stop and delete any
animation with the same name, construct a fresh one from the config
merged over defaults (`{ id: name, ...config }` — the model resolves the
merged id up front), register and start it, and lazily start the shared
loop when it was not running (which runs the first tick synchronously —
an exception from a callback in that tick propagates out of `animate`). -/
def startedAnimation (name : String) (config : AnimationConfig) (now : ℤ) :
    Animation :=
  (Animation.fromConfig
    { config with id := some (config.id.getD name) } now name).start now

def AnimationManager.animate (m : AnimationManager) (name : String)
    (config : AnimationConfig) (now : ℤ) :
    AnimationManager × List Event × Option String :=
  let m1 := if m.hasName name then m.stop name else m
  let m2 := { m1 with
    animations := m1.animations ++ [(name, startedAnimation name config now)] }
  if !m2.isRunning then m2.startLoop now else (m2, [], none)

/-- `destroy()` (lines 446-452): `stopAll`, cancel the pending frame,
clear the running flag. -/
def AnimationManager.destroy (m : AnimationManager) : AnimationManager :=
  { m.stopAll with isRunning := false }

/-- `Map` keys are pairwise distinct. -/
def NamesNodup (m : AnimationManager) : Prop :=
  (m.animations.map Prod.fst).Nodup

/-! ## SpringAnimation (animations.ts lines 458-521) -/

structure SpringAnimation where
  value : ℚ
  velocity : ℚ
  target : ℚ
  stiffness : ℚ := 170
  damping : ℚ := 26
  mass : ℚ := 1
  threshold : ℚ := 1/1000

/-- `SpringAnimation.update(deltaTime)` (lines 480-498): one
semi-implicit Euler step (velocity first, then value with the *new*
velocity), then the convergence check; on convergence the value is
snapped exactly to the target, the velocity zeroed, and `false`
("no further stepping") returned. -/
def SpringAnimation.update (s : SpringAnimation) (deltaTime : ℚ) :
    SpringAnimation × Bool :=
  let force := -s.stiffness * (s.value - s.target)
  let damping := -s.damping * s.velocity
  let acceleration := (force + damping) / s.mass
  let velocity2 := s.velocity + acceleration * deltaTime
  let value2 := s.value + velocity2 * deltaTime
  if |velocity2| < s.threshold ∧ |value2 - s.target| < s.threshold then
    ({ s with value := s.target, velocity := 0 }, false)
  else
    ({ s with value := value2, velocity := velocity2 }, true)

/-- `setTarget(target)` (lines 510-512). -/
def SpringAnimation.setTarget (s : SpringAnimation) (target : ℚ) :
    SpringAnimation :=
  { s with target := target }

/-! ## GalaxyView camera (GalaxyView.ts lines 54-59, 462-467, 615-640)

Camera arithmetic is exact field arithmetic, modelled over `ℚ`.  The
viewport centre is `(canvas.width / 2, canvas.height / 2)`. -/

structure Point where
  x : ℚ
  y : ℚ
  deriving DecidableEq

structure Camera where
  x : ℚ
  y : ℚ
  zoom : ℚ
  rotation : ℚ
  deriving DecidableEq

def MIN_ZOOM : ℚ := 1/10
def MAX_ZOOM : ℚ := 5

/-- `screenToWorld` (lines 462-467). -/
def screenToWorld (camera : Camera) (width height : ℚ) (point : Point) :
    Point :=
  { x := (point.x - width / 2) / camera.zoom + camera.x
    y := (point.y - height / 2) / camera.zoom + camera.y }

/-- `worldToScreen` (lines 451-456). -/
def worldToScreen (camera : Camera) (width height : ℚ) (point : Point) :
    Point :=
  { x := (point.x - camera.x) * camera.zoom + width / 2
    y := (point.y - camera.y) * camera.zoom + height / 2 }

/-- The zoom-towards-mouse-position body of `handleWheel`
(lines 624-638): convert the screen point to world space under the old
zoom, apply the new zoom, convert again, and shift the camera by the
difference between the two conversions. -/
def zoomToPoint (camera : Camera) (width height : ℚ) (point : Point)
    (newZoom : ℚ) : Camera :=
  let mouseWorld := screenToWorld camera width height point
  let camera2 := { camera with zoom := newZoom }
  let mouseWorldAfter := screenToWorld camera2 width height point
  { camera2 with
    x := camera2.x + (mouseWorld.x - mouseWorldAfter.x),
    y := camera2.y + (mouseWorld.y - mouseWorldAfter.y) }

/-- `handleWheel` (lines 617-640): the new zoom is the old zoom scaled
by 0.9 (wheel down) or 1.1 (wheel up), and the zoom-to-point shift only
happens when the new zoom lies within `[MIN_ZOOM, MAX_ZOOM]`. -/
def handleWheel (camera : Camera) (width height : ℚ) (point : Point)
    (deltaY : ℚ) : Camera :=
  let zoomDelta : ℚ := if 0 < deltaY then 9/10 else 11/10
  let newZoom := camera.zoom * zoomDelta
  if MIN_ZOOM ≤ newZoom ∧ newZoom ≤ MAX_ZOOM then
    zoomToPoint camera width height point newZoom
  else camera

/-! ## GalaxyView hit testing (GalaxyView.ts lines 645-663)

`getProjectAtPosition` walks `this.projects` in iteration order, forms
each project's current world centre (`calculateProjectPosition`) and
effective radius (`getProjectSize`), and returns the first project whose
Euclidean distance to the query point is at most its radius.  The model
takes the already-positioned entity list (world centre plus radius) as
the caller-supplied input; `Math.sqrt` forces this definition into `ℝ`. -/

structure Entity where
  id : String
  cx : ℝ
  cy : ℝ
  radius : ℝ

/-- `Math.sqrt(Math.pow(dx, 2) + Math.pow(dy, 2))` for one entity. -/
noncomputable def distanceTo (px py : ℝ) (e : Entity) : ℝ :=
  Real.sqrt ((px - e.cx) ^ 2 + (py - e.cy) ^ 2)

open Classical in
/-- `getProjectAtPosition(position)` (lines 645-663). -/
noncomputable def getProjectAtPosition (entities : List Entity)
    (px py : ℝ) : Option Entity :=
  match entities with
  | [] => none
  | e :: rest =>
    if distanceTo px py e ≤ e.radius then some e
    else getProjectAtPosition rest px py

/-- `getProjectSize` (lines 470-479): 20/30/40 by planet size class,
anything else defaulting to 30 — every effective radius is positive. -/
inductive PlanetSize : Type where
  | small
  | medium
  | large

def getProjectSize : PlanetSize → ℝ
  | .small => 20
  | .medium => 30
  | .large => 40

/-! ## Easing library (animations.ts lines 10-173)

Pure curve functions over `ℝ`; `Math.cos`/`Math.sin`/`Math.sqrt`/
`Math.pow` become their real counterparts (`2 ** x` is `rpow`).  The
source's pre-decrements (`--t`) are written out as `t - 1`. -/

namespace Easing

open Real

def linear (t : ℝ) : ℝ := t

def easeInQuad (t : ℝ) : ℝ := t * t

def easeOutQuad (t : ℝ) : ℝ := t * (2 - t)

noncomputable def easeInOutQuad (t : ℝ) : ℝ :=
  if t < 1/2 then 2 * t * t else -1 + (4 - 2 * t) * t

def easeInCubic (t : ℝ) : ℝ := t * t * t

def easeOutCubic (t : ℝ) : ℝ := (t - 1) * (t - 1) * (t - 1) + 1

noncomputable def easeInOutCubic (t : ℝ) : ℝ :=
  if t < 1/2 then 4 * t * t * t
  else (t - 1) * (2 * t - 2) * (2 * t - 2) + 1

def easeInQuart (t : ℝ) : ℝ := t * t * t * t

def easeOutQuart (t : ℝ) : ℝ := 1 - (t - 1) * (t - 1) * (t - 1) * (t - 1)

noncomputable def easeInOutQuart (t : ℝ) : ℝ :=
  if t < 1/2 then 8 * t * t * t * t
  else 1 - 8 * (t - 1) * (t - 1) * (t - 1) * (t - 1)

def easeInQuint (t : ℝ) : ℝ := t * t * t * t * t

def easeOutQuint (t : ℝ) : ℝ :=
  1 + (t - 1) * (t - 1) * (t - 1) * (t - 1) * (t - 1)

noncomputable def easeInOutQuint (t : ℝ) : ℝ :=
  if t < 1/2 then 16 * t * t * t * t * t
  else 1 + 16 * (t - 1) * (t - 1) * (t - 1) * (t - 1) * (t - 1)

noncomputable def easeInSine (t : ℝ) : ℝ := 1 - Real.cos (t * π / 2)

noncomputable def easeOutSine (t : ℝ) : ℝ := Real.sin (t * π / 2)

noncomputable def easeInOutSine (t : ℝ) : ℝ := -(Real.cos (π * t) - 1) / 2

noncomputable def easeInExpo (t : ℝ) : ℝ :=
  if t = 0 then 0 else (2 : ℝ) ^ (10 * t - 10)

noncomputable def easeOutExpo (t : ℝ) : ℝ :=
  if t = 1 then 1 else 1 - (2 : ℝ) ^ (-10 * t)

noncomputable def easeInOutExpo (t : ℝ) : ℝ :=
  if t = 0 then 0
  else if t = 1 then 1
  else if t < 1/2 then (2 : ℝ) ^ (20 * t - 10) / 2
  else (2 - (2 : ℝ) ^ (-20 * t + 10)) / 2

noncomputable def easeInCirc (t : ℝ) : ℝ := 1 - Real.sqrt (1 - t * t)

noncomputable def easeOutCirc (t : ℝ) : ℝ :=
  Real.sqrt (1 - (t - 1) * (t - 1))

noncomputable def easeInOutCirc (t : ℝ) : ℝ :=
  if t < 1/2 then (1 - Real.sqrt (1 - 4 * t * t)) / 2
  else (Real.sqrt (1 - (-2 * t + 2) * (-2 * t + 2)) + 1) / 2

noncomputable def easeInElastic (t : ℝ) : ℝ :=
  let c4 := 2 * π / 3
  if t = 0 then 0
  else if t = 1 then 1
  else -((2 : ℝ) ^ (10 * t - 10)) * Real.sin ((t * 10 - 10.75) * c4)

noncomputable def easeOutElastic (t : ℝ) : ℝ :=
  let c4 := 2 * π / 3
  if t = 0 then 0
  else if t = 1 then 1
  else (2 : ℝ) ^ (-10 * t) * Real.sin ((t * 10 - 0.75) * c4) + 1

noncomputable def easeInOutElastic (t : ℝ) : ℝ :=
  let c5 := 2 * π / 4.5
  if t = 0 then 0
  else if t = 1 then 1
  else if t < 1/2 then
    -((2 : ℝ) ^ (20 * t - 10) * Real.sin ((20 * t - 11.125) * c5)) / 2
  else
    ((2 : ℝ) ^ (-20 * t + 10) * Real.sin ((20 * t - 11.125) * c5)) / 2 + 1

noncomputable def easeOutBounce (t : ℝ) : ℝ :=
  let n1 : ℝ := 7.5625
  let d1 : ℝ := 2.75
  if t < 1 / d1 then n1 * t * t
  else if t < 2 / d1 then n1 * (t - 1.5 / d1) * (t - 1.5 / d1) + 0.75
  else if t < 2.5 / d1 then n1 * (t - 2.25 / d1) * (t - 2.25 / d1) + 0.9375
  else n1 * (t - 2.625 / d1) * (t - 2.625 / d1) + 0.984375

noncomputable def easeInBounce (t : ℝ) : ℝ := 1 - easeOutBounce (1 - t)

noncomputable def easeInOutBounce (t : ℝ) : ℝ :=
  if t < 1/2 then (1 - easeOutBounce (1 - 2 * t)) / 2
  else (1 + easeOutBounce (2 * t - 1)) / 2

def easeInBack (t : ℝ) : ℝ :=
  let c1 : ℝ := 1.70158
  let c3 : ℝ := c1 + 1
  c3 * t * t * t - c1 * t * t

def easeOutBack (t : ℝ) : ℝ :=
  let c1 : ℝ := 1.70158
  let c3 : ℝ := c1 + 1
  1 + c3 * (t - 1) ^ 3 + c1 * (t - 1) ^ 2

noncomputable def easeInOutBack (t : ℝ) : ℝ :=
  let c1 : ℝ := 1.70158
  let c2 : ℝ := c1 * 1.525
  if t < 1/2 then ((2 * t) ^ 2 * ((c2 + 1) * 2 * t - c2)) / 2
  else ((2 * t - 2) ^ 2 * ((c2 + 1) * (t * 2 - 2) + c2) + 2) / 2

/-! Endpoint and range lemmas for claim C9. -/

theorem linear_endpoints : linear 0 = 0 ∧ linear 1 = 1 := ⟨rfl, rfl⟩

theorem easeInQuad_endpoints : easeInQuad 0 = 0 ∧ easeInQuad 1 = 1 := by
  constructor <;> norm_num [easeInQuad]

theorem easeOutQuad_endpoints : easeOutQuad 0 = 0 ∧ easeOutQuad 1 = 1 := by
  constructor <;> norm_num [easeOutQuad]

theorem easeInOutQuad_endpoints : easeInOutQuad 0 = 0 ∧ easeInOutQuad 1 = 1 := by
  constructor
  · rw [easeInOutQuad, if_pos (by norm_num : (0:ℝ) < 1/2)]
    norm_num
  · rw [easeInOutQuad, if_neg (by norm_num : ¬(1:ℝ) < 1/2)]
    norm_num

theorem easeInCubic_endpoints : easeInCubic 0 = 0 ∧ easeInCubic 1 = 1 := by
  constructor <;> norm_num [easeInCubic]

theorem easeOutCubic_endpoints : easeOutCubic 0 = 0 ∧ easeOutCubic 1 = 1 := by
  constructor <;> norm_num [easeOutCubic]

theorem easeInOutCubic_endpoints : easeInOutCubic 0 = 0 ∧ easeInOutCubic 1 = 1 := by
  constructor
  · rw [easeInOutCubic, if_pos (by norm_num : (0:ℝ) < 1/2)]
    norm_num
  · rw [easeInOutCubic, if_neg (by norm_num : ¬(1:ℝ) < 1/2)]
    norm_num

theorem easeInQuart_endpoints : easeInQuart 0 = 0 ∧ easeInQuart 1 = 1 := by
  constructor <;> norm_num [easeInQuart]

theorem easeOutQuart_endpoints : easeOutQuart 0 = 0 ∧ easeOutQuart 1 = 1 := by
  constructor <;> norm_num [easeOutQuart]

theorem easeInOutQuart_endpoints : easeInOutQuart 0 = 0 ∧ easeInOutQuart 1 = 1 := by
  constructor
  · rw [easeInOutQuart, if_pos (by norm_num : (0:ℝ) < 1/2)]
    norm_num
  · rw [easeInOutQuart, if_neg (by norm_num : ¬(1:ℝ) < 1/2)]
    norm_num

theorem easeInQuint_endpoints : easeInQuint 0 = 0 ∧ easeInQuint 1 = 1 := by
  constructor <;> norm_num [easeInQuint]

theorem easeOutQuint_endpoints : easeOutQuint 0 = 0 ∧ easeOutQuint 1 = 1 := by
  constructor <;> norm_num [easeOutQuint]

theorem easeInOutQuint_endpoints : easeInOutQuint 0 = 0 ∧ easeInOutQuint 1 = 1 := by
  constructor
  · rw [easeInOutQuint, if_pos (by norm_num : (0:ℝ) < 1/2)]
    norm_num
  · rw [easeInOutQuint, if_neg (by norm_num : ¬(1:ℝ) < 1/2)]
    norm_num

theorem easeInSine_endpoints : easeInSine 0 = 0 ∧ easeInSine 1 = 1 := by
  constructor
  · simp [easeInSine]
  · simp [easeInSine, Real.cos_pi_div_two]

theorem easeOutSine_endpoints : easeOutSine 0 = 0 ∧ easeOutSine 1 = 1 := by
  constructor
  · simp [easeOutSine]
  · simp [easeOutSine, Real.sin_pi_div_two]

theorem easeInOutSine_endpoints : easeInOutSine 0 = 0 ∧ easeInOutSine 1 = 1 := by
  constructor
  · simp [easeInOutSine]
  · simp [easeInOutSine, Real.cos_pi]

theorem easeInExpo_endpoints : easeInExpo 0 = 0 ∧ easeInExpo 1 = 1 := by
  constructor
  · rw [easeInExpo, if_pos rfl]
  · rw [easeInExpo, if_neg (by norm_num : (1:ℝ) ≠ 0),
      show (10:ℝ) * 1 - 10 = 0 by norm_num, Real.rpow_zero]

theorem easeOutExpo_endpoints : easeOutExpo 0 = 0 ∧ easeOutExpo 1 = 1 := by
  constructor
  · rw [easeOutExpo, if_neg (by norm_num : (0:ℝ) ≠ 1),
      show (-10:ℝ) * 0 = 0 by norm_num, Real.rpow_zero]
    norm_num
  · rw [easeOutExpo, if_pos rfl]

theorem easeInOutExpo_endpoints : easeInOutExpo 0 = 0 ∧ easeInOutExpo 1 = 1 := by
  constructor
  · rw [easeInOutExpo, if_pos rfl]
  · rw [easeInOutExpo, if_neg (by norm_num : (1:ℝ) ≠ 0), if_pos rfl]

theorem easeInCirc_endpoints : easeInCirc 0 = 0 ∧ easeInCirc 1 = 1 := by
  constructor
  · norm_num [easeInCirc, Real.sqrt_one]
  · norm_num [easeInCirc, Real.sqrt_zero]

theorem easeOutCirc_endpoints : easeOutCirc 0 = 0 ∧ easeOutCirc 1 = 1 := by
  constructor
  · norm_num [easeOutCirc, Real.sqrt_zero]
  · norm_num [easeOutCirc, Real.sqrt_one]

theorem easeInOutCirc_endpoints : easeInOutCirc 0 = 0 ∧ easeInOutCirc 1 = 1 := by
  constructor
  · rw [easeInOutCirc, if_pos (by norm_num : (0:ℝ) < 1/2)]
    norm_num [Real.sqrt_one]
  · rw [easeInOutCirc, if_neg (by norm_num : ¬(1:ℝ) < 1/2)]
    norm_num [Real.sqrt_one]

theorem easeInElastic_endpoints : easeInElastic 0 = 0 ∧ easeInElastic 1 = 1 := by
  constructor
  · rw [easeInElastic]
    norm_num
  · rw [easeInElastic]
    norm_num

theorem easeOutElastic_endpoints : easeOutElastic 0 = 0 ∧ easeOutElastic 1 = 1 := by
  constructor
  · rw [easeOutElastic]
    norm_num
  · rw [easeOutElastic]
    norm_num

theorem easeInOutElastic_endpoints :
    easeInOutElastic 0 = 0 ∧ easeInOutElastic 1 = 1 := by
  constructor
  · rw [easeInOutElastic]
    norm_num
  · rw [easeInOutElastic]
    norm_num

theorem easeOutBounce_one : easeOutBounce 1 = 1 := by
  rw [easeOutBounce]
  norm_num

theorem easeOutBounce_zero : easeOutBounce 0 = 0 := by
  rw [easeOutBounce]
  norm_num

theorem easeOutBounce_endpoints : easeOutBounce 0 = 0 ∧ easeOutBounce 1 = 1 :=
  ⟨easeOutBounce_zero, easeOutBounce_one⟩

theorem easeInBounce_endpoints : easeInBounce 0 = 0 ∧ easeInBounce 1 = 1 := by
  constructor
  · rw [easeInBounce, show (1:ℝ) - 0 = 1 by norm_num, easeOutBounce_one]
    norm_num
  · rw [easeInBounce, show (1:ℝ) - 1 = 0 by norm_num, easeOutBounce_zero]
    norm_num

theorem easeInOutBounce_endpoints :
    easeInOutBounce 0 = 0 ∧ easeInOutBounce 1 = 1 := by
  constructor
  · rw [easeInOutBounce, if_pos (by norm_num : (0:ℝ) < 1/2),
      show (1:ℝ) - 2 * 0 = 1 by norm_num, easeOutBounce_one]
    norm_num
  · rw [easeInOutBounce, if_neg (by norm_num : ¬(1:ℝ) < 1/2),
      show (2:ℝ) * 1 - 1 = 1 by norm_num, easeOutBounce_one]
    norm_num

theorem easeInBack_endpoints : easeInBack 0 = 0 ∧ easeInBack 1 = 1 := by
  constructor <;> norm_num [easeInBack]

theorem easeOutBack_endpoints : easeOutBack 0 = 0 ∧ easeOutBack 1 = 1 := by
  constructor <;> norm_num [easeOutBack]

theorem easeInOutBack_endpoints : easeInOutBack 0 = 0 ∧ easeInOutBack 1 = 1 := by
  constructor
  · rw [easeInOutBack, if_pos (by norm_num : (0:ℝ) < 1/2)]
    norm_num
  · rw [easeInOutBack, if_neg (by norm_num : ¬(1:ℝ) < 1/2)]
    norm_num


theorem linear_bounds (t : ℝ) (h0 : 0 ≤ t) (h1 : t ≤ 1) :
    0 ≤ linear t ∧ linear t ≤ 1 := ⟨h0, h1⟩

theorem easeInQuad_bounds (t : ℝ) (h0 : 0 ≤ t) (h1 : t ≤ 1) :
    0 ≤ easeInQuad t ∧ easeInQuad t ≤ 1 := by
  rw [easeInQuad]
  constructor
  · exact mul_nonneg h0 h0
  · nlinarith

theorem easeOutQuad_bounds (t : ℝ) (h0 : 0 ≤ t) (h1 : t ≤ 1) :
    0 ≤ easeOutQuad t ∧ easeOutQuad t ≤ 1 := by
  rw [easeOutQuad]
  constructor <;> nlinarith [sq_nonneg (1 - t)]

theorem easeInOutQuad_bounds (t : ℝ) (h0 : 0 ≤ t) (h1 : t ≤ 1) :
    0 ≤ easeInOutQuad t ∧ easeInOutQuad t ≤ 1 := by
  rw [easeInOutQuad]
  split_ifs with h
  · constructor
    · nlinarith
    · nlinarith [mul_self_le_mul_self h0 h.le]
  · constructor
    · nlinarith [mul_self_le_mul_self (by linarith : (0:ℝ) ≤ 1 - t)
        (by linarith : 1 - t ≤ 1/2)]
    · nlinarith [sq_nonneg (1 - t)]

theorem easeInCubic_bounds (t : ℝ) (h0 : 0 ≤ t) (h1 : t ≤ 1) :
    0 ≤ easeInCubic t ∧ easeInCubic t ≤ 1 := by
  rw [easeInCubic]
  constructor
  · exact mul_nonneg (mul_nonneg h0 h0) h0
  · nlinarith [mul_nonneg h0 h0]

theorem easeOutCubic_bounds (t : ℝ) (h0 : 0 ≤ t) (h1 : t ≤ 1) :
    0 ≤ easeOutCubic t ∧ easeOutCubic t ≤ 1 := by
  rw [easeOutCubic]
  constructor
  · nlinarith [mul_nonneg h0
      (by nlinarith [sq_nonneg (t - 1)] : (0:ℝ) ≤ (t-1)*(t-1) - (t-1) + 1)]
  · nlinarith [mul_nonpos_of_nonpos_of_nonneg
      (by linarith : t - 1 ≤ 0) (mul_self_nonneg (t - 1))]

theorem easeInOutCubic_bounds (t : ℝ) (h0 : 0 ≤ t) (h1 : t ≤ 1) :
    0 ≤ easeInOutCubic t ∧ easeInOutCubic t ≤ 1 := by
  rw [easeInOutCubic]
  split_ifs with h
  · constructor
    · nlinarith [mul_nonneg (mul_nonneg h0 h0) h0]
    · nlinarith [mul_self_le_mul_self h0 h.le, mul_nonneg h0 h0]
  · have hu0 : (0:ℝ) ≤ 1 - t := by linarith
    have hu2 : (1 - t) * (1 - t) ≤ 1/4 :=
      by nlinarith [mul_self_le_mul_self hu0 (by linarith : 1 - t ≤ 1/2)]
    have hu3 : (1 - t) * (1 - t) * (1 - t) ≤ 1/8 := by
      nlinarith [hu2, hu0, mul_self_nonneg (1 - t),
        (by linarith : 1 - t ≤ 1/2)]
    constructor
    · nlinarith [hu3]
    · nlinarith [mul_nonneg (mul_nonneg hu0 hu0) hu0]

theorem easeInQuart_bounds (t : ℝ) (h0 : 0 ≤ t) (h1 : t ≤ 1) :
    0 ≤ easeInQuart t ∧ easeInQuart t ≤ 1 := by
  rw [easeInQuart]
  have h2 : t * t ≤ 1 := by nlinarith
  constructor
  · exact mul_nonneg (mul_nonneg (mul_nonneg h0 h0) h0) h0
  · nlinarith [mul_self_nonneg t]

theorem easeOutQuart_bounds (t : ℝ) (h0 : 0 ≤ t) (h1 : t ≤ 1) :
    0 ≤ easeOutQuart t ∧ easeOutQuart t ≤ 1 := by
  rw [easeOutQuart]
  have hu0 : (0:ℝ) ≤ 1 - t := by linarith
  have hu2 : (1 - t) * (1 - t) ≤ 1 := by nlinarith
  constructor
  · nlinarith [mul_self_nonneg (1 - t)]
  · nlinarith [mul_self_nonneg ((1 - t) * (1 - t))]

theorem easeInOutQuart_bounds (t : ℝ) (h0 : 0 ≤ t) (h1 : t ≤ 1) :
    0 ≤ easeInOutQuart t ∧ easeInOutQuart t ≤ 1 := by
  rw [easeInOutQuart]
  split_ifs with h
  · have h2 : t * t ≤ 1/4 := by nlinarith [mul_self_le_mul_self h0 h.le]
    constructor
    · nlinarith [mul_nonneg (mul_nonneg (mul_nonneg h0 h0) h0) h0]
    · nlinarith [mul_self_nonneg t]
  · have hu0 : (0:ℝ) ≤ 1 - t := by linarith
    have hu2 : (1 - t) * (1 - t) ≤ 1/4 := by
      nlinarith [mul_self_le_mul_self hu0 (by linarith : 1 - t ≤ 1/2)]
    constructor
    · nlinarith [mul_self_nonneg (1 - t)]
    · nlinarith [mul_self_nonneg ((1 - t) * (1 - t))]

theorem easeInQuint_bounds (t : ℝ) (h0 : 0 ≤ t) (h1 : t ≤ 1) :
    0 ≤ easeInQuint t ∧ easeInQuint t ≤ 1 := by
  rw [easeInQuint]
  have h2 : t * t ≤ 1 := by nlinarith
  have h4 : t * t * (t * t) ≤ 1 := by nlinarith [mul_self_nonneg t]
  constructor
  · exact mul_nonneg (mul_nonneg (mul_nonneg (mul_nonneg h0 h0) h0) h0) h0
  · nlinarith [mul_nonneg (mul_nonneg (mul_nonneg h0 h0) h0) h0]

theorem easeOutQuint_bounds (t : ℝ) (h0 : 0 ≤ t) (h1 : t ≤ 1) :
    0 ≤ easeOutQuint t ∧ easeOutQuint t ≤ 1 := by
  rw [easeOutQuint]
  have hu0 : (0:ℝ) ≤ 1 - t := by linarith
  have hu2 : (1 - t) * (1 - t) ≤ 1 := by nlinarith
  have hu4 : (1 - t) * (1 - t) * ((1 - t) * (1 - t)) ≤ 1 := by
    nlinarith [mul_self_nonneg (1 - t)]
  constructor
  · nlinarith [mul_nonneg (mul_nonneg (mul_nonneg (mul_nonneg hu0 hu0) hu0) hu0) hu0]
  · nlinarith [mul_nonneg (mul_nonneg (mul_nonneg (mul_nonneg hu0 hu0) hu0) hu0) hu0]

theorem easeInOutQuint_bounds (t : ℝ) (h0 : 0 ≤ t) (h1 : t ≤ 1) :
    0 ≤ easeInOutQuint t ∧ easeInOutQuint t ≤ 1 := by
  rw [easeInOutQuint]
  split_ifs with h
  · have h2 : t * t ≤ 1/4 := by nlinarith [mul_self_le_mul_self h0 h.le]
    have h4 : t * t * (t * t) ≤ 1/16 := by nlinarith [mul_self_nonneg t]
    constructor
    · nlinarith [mul_nonneg (mul_nonneg (mul_nonneg (mul_nonneg h0 h0) h0) h0) h0]
    · nlinarith [mul_nonneg (mul_nonneg (mul_nonneg h0 h0) h0) h0]
  · have hu0 : (0:ℝ) ≤ 1 - t := by linarith
    have hu2 : (1 - t) * (1 - t) ≤ 1/4 := by
      nlinarith [mul_self_le_mul_self hu0 (by linarith : 1 - t ≤ 1/2)]
    have hu4 : (1 - t) * (1 - t) * ((1 - t) * (1 - t)) ≤ 1/16 := by
      nlinarith [mul_self_nonneg (1 - t)]
    constructor
    · nlinarith [mul_nonneg (mul_nonneg (mul_nonneg (mul_nonneg hu0 hu0) hu0) hu0) hu0]
    · nlinarith [mul_nonneg (mul_nonneg (mul_nonneg (mul_nonneg hu0 hu0) hu0) hu0) hu0]

theorem easeInSine_bounds (t : ℝ) (h0 : 0 ≤ t) (h1 : t ≤ 1) :
    0 ≤ easeInSine t ∧ easeInSine t ≤ 1 := by
  rw [easeInSine]
  have hpi := Real.pi_pos
  have hc1 : Real.cos (t * Real.pi / 2) ≤ 1 := Real.cos_le_one _
  have hc0 : 0 ≤ Real.cos (t * Real.pi / 2) := by
    apply Real.cos_nonneg_of_mem_Icc
    apply Set.mem_Icc.mpr
    constructor
    · nlinarith
    · nlinarith
  constructor <;> linarith

theorem easeOutSine_bounds (t : ℝ) (h0 : 0 ≤ t) (h1 : t ≤ 1) :
    0 ≤ easeOutSine t ∧ easeOutSine t ≤ 1 := by
  rw [easeOutSine]
  have hpi := Real.pi_pos
  constructor
  · apply Real.sin_nonneg_of_nonneg_of_le_pi
    · nlinarith
    · nlinarith
  · exact Real.sin_le_one _

theorem easeInOutSine_bounds (t : ℝ) (h0 : 0 ≤ t) (h1 : t ≤ 1) :
    0 ≤ easeInOutSine t ∧ easeInOutSine t ≤ 1 := by
  rw [easeInOutSine]
  have hc1 : Real.cos (Real.pi * t) ≤ 1 := Real.cos_le_one _
  have hc0 : -1 ≤ Real.cos (Real.pi * t) := Real.neg_one_le_cos _
  constructor <;> [linarith; linarith]

theorem easeInExpo_bounds (t : ℝ) (h0 : 0 ≤ t) (h1 : t ≤ 1) :
    0 ≤ easeInExpo t ∧ easeInExpo t ≤ 1 := by
  rw [easeInExpo]
  split_ifs with h
  · norm_num
  · constructor
    · exact le_of_lt (Real.rpow_pos_of_pos (by norm_num) _)
    · exact Real.rpow_le_one_of_one_le_of_nonpos (by norm_num) (by linarith)

theorem easeOutExpo_bounds (t : ℝ) (h0 : 0 ≤ t) (h1 : t ≤ 1) :
    0 ≤ easeOutExpo t ∧ easeOutExpo t ≤ 1 := by
  rw [easeOutExpo]
  split_ifs with h
  · norm_num
  · have hp : (0:ℝ) < (2:ℝ) ^ (-10 * t) := Real.rpow_pos_of_pos (by norm_num) _
    have hle : (2:ℝ) ^ (-10 * t) ≤ 1 :=
      Real.rpow_le_one_of_one_le_of_nonpos (by norm_num) (by linarith)
    constructor <;> linarith

theorem easeInOutExpo_bounds (t : ℝ) (h0 : 0 ≤ t) (h1 : t ≤ 1) :
    0 ≤ easeInOutExpo t ∧ easeInOutExpo t ≤ 1 := by
  rw [easeInOutExpo]
  split_ifs with ha hb hc
  · norm_num
  · norm_num
  · have hp : (0:ℝ) < (2:ℝ) ^ (20 * t - 10) := Real.rpow_pos_of_pos (by norm_num) _
    have hle : (2:ℝ) ^ (20 * t - 10) ≤ 1 :=
      Real.rpow_le_one_of_one_le_of_nonpos (by norm_num) (by linarith)
    constructor <;> linarith
  · have hp : (0:ℝ) < (2:ℝ) ^ (-20 * t + 10) := Real.rpow_pos_of_pos (by norm_num) _
    have hle : (2:ℝ) ^ (-20 * t + 10) ≤ 1 := by
      apply Real.rpow_le_one_of_one_le_of_nonpos (by norm_num)
      push_neg at hc
      linarith
    constructor <;> linarith

theorem easeInCirc_bounds (t : ℝ) (h0 : 0 ≤ t) (h1 : t ≤ 1) :
    0 ≤ easeInCirc t ∧ easeInCirc t ≤ 1 := by
  rw [easeInCirc]
  have hs0 : 0 ≤ Real.sqrt (1 - t * t) := Real.sqrt_nonneg _
  have hs1 : Real.sqrt (1 - t * t) ≤ 1 := Real.sqrt_le_one.mpr (by nlinarith)
  constructor <;> linarith

theorem easeOutCirc_bounds (t : ℝ) (h0 : 0 ≤ t) (h1 : t ≤ 1) :
    0 ≤ easeOutCirc t ∧ easeOutCirc t ≤ 1 := by
  rw [easeOutCirc]
  refine ⟨Real.sqrt_nonneg _, Real.sqrt_le_one.mpr (by nlinarith [sq_nonneg (t - 1)])⟩

theorem easeInOutCirc_bounds (t : ℝ) (h0 : 0 ≤ t) (h1 : t ≤ 1) :
    0 ≤ easeInOutCirc t ∧ easeInOutCirc t ≤ 1 := by
  rw [easeInOutCirc]
  split_ifs with h
  · have hs0 : 0 ≤ Real.sqrt (1 - 4 * t * t) := Real.sqrt_nonneg _
    have hs1 : Real.sqrt (1 - 4 * t * t) ≤ 1 :=
      Real.sqrt_le_one.mpr (by nlinarith [sq_nonneg t])
    constructor <;> linarith
  · have hs0 : 0 ≤ Real.sqrt (1 - (-2 * t + 2) * (-2 * t + 2)) := Real.sqrt_nonneg _
    have hs1 : Real.sqrt (1 - (-2 * t + 2) * (-2 * t + 2)) ≤ 1 :=
      Real.sqrt_le_one.mpr (by nlinarith [sq_nonneg (-2 * t + 2)])
    constructor <;> linarith




end Easing

/-! ## Sample data used by witnesses -/

/-- A stopped animation with `from`/`to` of unrelated shapes. -/
def stoppedSample : Animation :=
  { id := "s", startTime := 0, duration := 500
    «from» := .arr [.num 1, .num 2], «to» := .num 9
    easing := fun t => t
    onUpdateThrows := false, hasOnComplete := true
    onCompleteThrows := false, tag := 7 }

/-- A running linear 0→100 animation over 1000 ms started at time 0. -/
def runningSample : Animation :=
  { id := "r", startTime := 0, duration := 1000
    «from» := .num 0, «to» := .num 100
    easing := fun t => t
    onUpdateThrows := false, hasOnComplete := false
    onCompleteThrows := false, tag := 3
    isRunning := true }

/-! ## Claim C10 -/

/-- C10: for every `Animation` that is not in the Running state,
`getProgress()` returns the fixed mapping `{opacity: 1, scale: 1}`,
regardless of the configured `from`/`to` values and their shape. -/
theorem C10_getProgress_of_not_running (a : Animation) (now : ℤ)
    (h : a.isRunning = false) :
    a.getProgress now = .obj [("opacity", .num 1), ("scale", .num 1)] := by
  simp [Animation.getProgress, h]

theorem C10_witness :
    stoppedSample.getProgress 12345
      = .obj [("opacity", .num 1), ("scale", .num 1)] :=
  C10_getProgress_of_not_running stoppedSample 12345 rfl

/-! ## Claim C5 -/

/-- C5 (code-bug evidence): the `Animation` constructor performs no
validation whatsoever — it succeeds for `duration = 0` and for
`duration = -5`, storing the non-positive duration unchanged, where the
claim requires an immediate validation failure. -/
theorem C5_constructor_accepts_nonpositive_duration :
    (Animation.fromConfig { duration := 0 } 0 "fresh").duration = 0 ∧
    (Animation.fromConfig { duration := -5 } 0 "fresh").duration = -5 :=
  ⟨rfl, rfl⟩

/-! ## Claim C8 -/

/-- `const acceleration = (force + damping) / this.mass` (lines 481-483). -/
def springAcceleration (s : SpringAnimation) : ℚ :=
  (-s.stiffness * (s.value - s.target) + -s.damping * s.velocity) / s.mass

/-- The velocity after the semi-implicit Euler step (line 485). -/
def springV2 (s : SpringAnimation) (deltaTime : ℚ) : ℚ :=
  s.velocity + springAcceleration s * deltaTime

/-- The value after the step — advanced by the *new* velocity (line 486). -/
def springX2 (s : SpringAnimation) (deltaTime : ℚ) : ℚ :=
  s.value + springV2 s deltaTime * deltaTime

/-- C8: `SpringAnimation.update` performs one semi-implicit Euler step;
if afterwards both |velocity| and |value − target| are below the
threshold, the value is set exactly to the target, the velocity exactly
to zero, and `false` ("stop stepping") is returned; otherwise the
stepped state is kept and `true` ("keep stepping") is returned. -/
theorem C8_spring_semi_implicit_euler_and_snap (s : SpringAnimation)
    (deltaTime : ℚ) :
    (|springV2 s deltaTime| < s.threshold ∧
        |springX2 s deltaTime - s.target| < s.threshold →
      s.update deltaTime = ({ s with value := s.target, velocity := 0 }, false)) ∧
    (¬(|springV2 s deltaTime| < s.threshold ∧
        |springX2 s deltaTime - s.target| < s.threshold) →
      s.update deltaTime =
        ({ s with value := springX2 s deltaTime,
                  velocity := springV2 s deltaTime }, true)) := by
  unfold SpringAnimation.update springX2 springV2 springAcceleration
  constructor
  · intro h
    rw [if_pos h]
  · intro h
    rw [if_neg h]

/-- A spring already at rest on its target: the step converges. -/
def springAtRest : SpringAnimation := { value := 0, velocity := 0, target := 0 }

/-- A spring displaced far from its target: the step does not converge. -/
def springFar : SpringAnimation := { value := 100, velocity := 0, target := 0 }

theorem C8_witness :
    springAtRest.update (1/60) = ({ springAtRest with value := 0, velocity := 0 }, false) ∧
    springFar.update (1/60) =
      ({ springFar with value := springX2 springFar (1/60),
                        velocity := springV2 springFar (1/60) }, true) :=
  ⟨(C8_spring_semi_implicit_euler_and_snap springAtRest (1/60)).1 (by
      constructor <;>
        norm_num [springV2, springX2, springAcceleration, springAtRest, abs_lt]),
   (C8_spring_semi_implicit_euler_and_snap springFar (1/60)).2 (by
      rw [not_and_or]
      left
      norm_num [springV2, springAcceleration, springFar, abs_lt])⟩

/-! ## Claim C3 -/

/-- C3: zoom-to-point keeps the world coordinates of the zoomed-at
screen point unchanged, for every camera with in-bounds zoom and every
in-bounds new zoom; in particular the spec scenario — camera at zoom 1,
position (0,0), viewport centre (400,300) (canvas 800×600), zooming to 2
at screen (400,300) — leaves the camera position at (0,0). -/
theorem C3_zoom_to_point_anchors_world_point (camera : Camera)
    (width height : ℚ) (point : Point) (newZoom : ℚ)
    (hz1 : MIN_ZOOM ≤ camera.zoom) (hz2 : camera.zoom ≤ MAX_ZOOM)
    (hn1 : MIN_ZOOM ≤ newZoom) (hn2 : newZoom ≤ MAX_ZOOM) :
    screenToWorld (zoomToPoint camera width height point newZoom)
        width height point
      = screenToWorld camera width height point ∧
    (zoomToPoint ⟨0, 0, 1, 0⟩ 800 600 ⟨400, 300⟩ 2).x = 0 ∧
    (zoomToPoint ⟨0, 0, 1, 0⟩ 800 600 ⟨400, 300⟩ 2).y = 0 := by
  refine ⟨?_, by norm_num [zoomToPoint, screenToWorld],
             by norm_num [zoomToPoint, screenToWorld]⟩
  simp only [screenToWorld, zoomToPoint, Point.mk.injEq]
  constructor <;> ring

theorem C3_witness :
    screenToWorld (zoomToPoint ⟨0, 0, 1, 0⟩ 800 600 ⟨400, 300⟩ 2)
        800 600 ⟨400, 300⟩
      = screenToWorld ⟨0, 0, 1, 0⟩ 800 600 ⟨400, 300⟩ ∧
    (zoomToPoint ⟨0, 0, 1, 0⟩ 800 600 ⟨400, 300⟩ 2).x = 0 ∧
    (zoomToPoint ⟨0, 0, 1, 0⟩ 800 600 ⟨400, 300⟩ 2).y = 0 :=
  C3_zoom_to_point_anchors_world_point ⟨0, 0, 1, 0⟩ 800 600 ⟨400, 300⟩ 2
    (by norm_num [MIN_ZOOM]) (by norm_num [MAX_ZOOM])
    (by norm_num [MIN_ZOOM]) (by norm_num [MAX_ZOOM])

/-! ## Claim C4 -/

/-- C4 counterexample: with `from = {a: 0, b: 0}` and `to = {a: 2}` at
progress 1/2, the result is `{a: 1}` — the key `b`, present in `from`,
does *not* appear in the result, refuting "every key present in `from`
appears in the result". -/
theorem C4_counterexample :
    interpolate (.obj [("a", .num 0), ("b", .num 0)]) (.obj [("a", .num 2)])
        (1/2) = .obj [("a", .num 1)] ∧
    lookupKey "b" [("a", .num 1)] = none := by
  constructor
  · simp +decide [interpolate, interpolateEntries, lookupKey]
  · simp +decide [lookupKey]

/-- Keys absent from `to` never reach the interpolated mapping. -/
theorem lookup_interpolateEntries_of_right_none
    (as bs : List (String × Value)) (progress : ℚ) (k : String)
    (h : lookupKey k bs = none) :
    lookupKey k (interpolateEntries as bs progress) = none := by
  induction as with
  | nil => simp [interpolateEntries, lookupKey]
  | cons kv rest ih =>
    obtain ⟨k1, v1⟩ := kv
    rw [interpolateEntries]
    cases h1 : lookupKey k1 bs with
    | none => exact ih
    | some w1 =>
      rw [lookupKey]
      have : k1 ≠ k := by
        intro hk
        rw [hk, h] at h1
        exact Option.noConfusion h1
      rw [if_neg this]
      exact ih

/-- C4 amended: the tween's mapping interpolation is key-wise over the
keys of `from` that are also present in `to`: such a key maps to the
interpolation of the two values; a key present only in `from` is dropped
from the result; an extra key present only in `to` is ignored. -/
theorem C4_mapping_interpolation_keywise (as bs : List (String × Value))
    (progress : ℚ) :
    interpolate (.obj as) (.obj bs) progress
      = .obj (interpolateEntries as bs progress) ∧
    ∀ k, lookupKey k (interpolateEntries as bs progress)
      = (lookupKey k as).bind fun v =>
          (lookupKey k bs).map fun w => interpolate v w progress := by
  refine ⟨by rw [interpolate], ?_⟩
  intro k
  induction as with
  | nil => simp [interpolateEntries, lookupKey]
  | cons kv rest ih =>
    obtain ⟨k1, v1⟩ := kv
    rw [interpolateEntries]
    cases h1 : lookupKey k1 bs with
    | none =>
      by_cases hk : k1 = k
      · subst hk
        simp [lookupKey, h1,
          lookup_interpolateEntries_of_right_none rest bs progress k1 h1]
      · simp [lookupKey, hk, ih]
    | some w1 =>
      by_cases hk : k1 = k
      · subst hk
        simp [lookupKey, h1]
      · simp [lookupKey, hk, ih]

/-! ## Claim C2 -/

/-- A stopped animation cannot fire any callback, ever: its update
returns immediately with no events and no state change. -/
theorem update_of_not_running (a : Animation) (t : ℤ)
    (h : a.isRunning = false) : a.update t = ⟨true, a, [], none⟩ := by
  simp [Animation.update, h]

/-- An in-flight animation (progress still below 1) reports
"keep me alive", whether or not its update callback throws. -/
theorem update_keepAlive_of_progress_lt (a : Animation) (now : ℤ)
    (h1 : a.isRunning = true) (h2 : a.isPaused = false)
    (h3 : a.progressAt now < 1) :
    (a.update now).keepAlive = true := by
  cases hu : a.onUpdateThrows with
  | true => simp [Animation.update, h1, h2, hu]
  | false => simp [Animation.update, h1, h2, hu, not_le.mpr h3]

/-- An in-flight animation (running, unpaused, progress below 1) with a
well-behaved update callback fires exactly its update event and stays
registered and unchanged. -/
theorem update_inflight (a : Animation) (now : ℤ)
    (h1 : a.isRunning = true) (h2 : a.isPaused = false)
    (h3 : a.onUpdateThrows = false) (h4 : a.progressAt now < 1) :
    a.update now = ⟨true, a, [.updated a.tag (a.currentValue now)], none⟩ := by
  simp [Animation.update, h1, h2, h3, not_le.mpr h4]

/-- One pass of the update loop never changes the registry's keys. -/
theorem updatePass_keys (now : ℤ) (l : List (String × Animation)) :
    (updatePass now l).1.map Prod.fst = l.map Prod.fst := by
  induction l with
  | nil => rfl
  | cons kv rest ih =>
    obtain ⟨name, a⟩ := kv
    rw [updatePass]
    cases h : (a.update now).thrown with
    | some e => simp [h]
    | none => simp [h, ih]

/-- Every name collected for removal belongs to a registered animation
whose update returned `false`. -/
theorem updatePass_toRemove_mem (now : ℤ) (l : List (String × Animation)) :
    ∀ n ∈ (updatePass now l).2.1,
      ∃ a, (n, a) ∈ l ∧ (a.update now).keepAlive = false := by
  induction l with
  | nil => simp [updatePass]
  | cons kv rest ih =>
    obtain ⟨name, a⟩ := kv
    rw [updatePass]
    cases h : (a.update now).thrown with
    | some e => simp [h]
    | none =>
      simp only [h]
      cases hk : (a.update now).keepAlive with
      | true =>
        simp only [hk, Bool.true_eq_false, if_true]
        intro n hn
        obtain ⟨a0, hmem, hka⟩ := ih n hn
        exact ⟨a0, List.mem_cons_of_mem _ hmem, hka⟩
      | false =>
        simp only [hk, Bool.false_eq_true, if_false]
        intro n hn
        rcases List.mem_cons.mp hn with hEq | hmem
        · exact ⟨a, by simp [hEq], hk⟩
        · obtain ⟨a0, hmem0, hka⟩ := ih n hmem
          exact ⟨a0, List.mem_cons_of_mem _ hmem0, hka⟩

/-! ## Claim C1 -/

/-- A running animation whose update callback throws. -/
def throwingAnim : Animation :=
  { id := "a", startTime := 0, duration := 1000
    «from» := .num 0, «to» := .num 1
    easing := fun t => t
    onUpdateThrows := true, hasOnComplete := true
    onCompleteThrows := false, tag := 1
    isRunning := true }

/-- A running animation whose callbacks are well-behaved. -/
def innocentAnim : Animation :=
  { id := "b", startTime := 0, duration := 1000
    «from» := .num 0, «to» := .num 1
    easing := fun t => t
    onUpdateThrows := false, hasOnComplete := true
    onCompleteThrows := false, tag := 2
    isRunning := true }

/-- A registry holding the throwing animation first and a well-behaved
one after it, with the shared loop running. -/
def crashManager : AnimationManager :=
  { animations := [("a", throwingAnim), ("b", innocentAnim)]
    isRunning := true }

/-- C1 (code-bug evidence): one tick of the shared update loop over
`crashManager` lets the exception from `"a"`'s update callback
propagate (nothing catches it), keeps `"a"` registered (it is not
dropped), and fires no callback at all — in particular `"b"` is not
updated on that tick — even though `"b"`'s own update would have
succeeded and produced an update event. -/
theorem C1_shared_loop_is_not_isolated :
    (crashManager.update 500).2.2 = some "onUpdate threw" ∧
    (crashManager.update 500).1.animations.map Prod.fst = ["a", "b"] ∧
    (crashManager.update 500).2.1 = [] ∧
    (innocentAnim.update 500).thrown = none ∧
    (innocentAnim.update 500).events
      = [.updated 2 (innocentAnim.currentValue 500)] := by
  have hprog : innocentAnim.progressAt 500 < 1 := by
    rw [Animation.progressAt]
    refine min_lt_iff.mpr (Or.inl ?_)
    norm_num [Animation.elapsedAt, innocentAnim]
  have hupd := update_inflight innocentAnim 500 rfl rfl rfl hprog
  refine ⟨rfl, rfl, rfl, by rw [hupd], by rw [hupd]; rfl⟩

/-- Entries surviving `stop(name)` never carry the stopped name. -/
theorem stop_no_key (m : AnimationManager) (name : String) :
    ∀ kv ∈ (m.stop name).animations, kv.1 ≠ name := by
  intro kv hkv
  have := List.of_mem_filter hkv
  simpa using this

/-- When `has(name)` is false no registered entry carries `name`. -/
theorem hasName_false_no_key (m : AnimationManager) (name : String)
    (h : m.hasName name = false) :
    ∀ kv ∈ m.animations, kv.1 ≠ name := by
  intro kv hkv
  rw [AnimationManager.hasName] at h
  rw [List.any_eq_false] at h
  simpa using h kv hkv

/-- Filtering for a key across a name-free prefix and a final singleton
leaves just the singleton. -/
theorem filter_key_append (l0 : List (String × Animation)) (name : String)
    (a : Animation) (h : ∀ kv ∈ l0, kv.1 ≠ name) :
    (l0 ++ [(name, a)]).filter (fun kv => kv.1 = name) = [(name, a)] := by
  rw [List.filter_append]
  have h0 : l0.filter (fun kv => decide (kv.1 = name)) = [] := by
    rw [List.filter_eq_nil_iff]
    intro kv hkv
    simp [h kv hkv]
  simp [h0]

/-- The animation `animate` registers starts running, unpaused, with
zero progress at its own start instant. -/
theorem startedAnimation_state (name : String) (c : AnimationConfig)
    (now : ℤ) :
    (startedAnimation name c now).isRunning = true ∧
    (startedAnimation name c now).isPaused = false ∧
    (startedAnimation name c now).progressAt now = 0 := by
  refine ⟨by simp [startedAnimation, Animation.start],
          by simp [startedAnimation, Animation.start], ?_⟩
  have h1 : (startedAnimation name c now).elapsedAt now = 0 := by
    simp [startedAnimation, Animation.start, Animation.elapsedAt]
  rw [Animation.progressAt, h1, zero_div]
  exact min_eq_left zero_le_one

/-- With the shared loop already running, `animate` only replaces the
named entry and appends the fresh started animation. -/
theorem animate_of_isRunning (m : AnimationManager) (name : String)
    (c : AnimationConfig) (now : ℤ) (h : m.isRunning = true) :
    (m.animate name c now).1.animations
      = (if m.hasName name then m.stop name else m).animations
        ++ [(name, startedAnimation name c now)] ∧
    (m.animate name c now).1.isRunning = true := by
  have hrun1 : (if m.hasName name then m.stop name else m).isRunning = true := by
    cases hm : m.hasName name <;> simp [hm, AnimationManager.stop, h]
  rw [AnimationManager.animate]
  simp only [hrun1, Bool.not_true, Bool.false_eq_true, if_false]
  constructor <;> first | trivial | exact hrun1

/-- The prefix `animate` keeps in front of its fresh animation never
carries the animated name. -/
theorem animate_prefix_no_key (m : AnimationManager) (name : String) :
    ∀ kv ∈ (if m.hasName name then m.stop name else m).animations,
      kv.1 ≠ name := by
  cases hm : m.hasName name with
  | true => simpa [hm] using stop_no_key m name
  | false => simpa [hm] using hasName_false_no_key m name hm

/-- After any `animate` call the shared loop is running. -/
theorem animate_isRunning (m : AnimationManager) (name : String)
    (c : AnimationConfig) (now : ℤ) :
    (m.animate name c now).1.isRunning = true := by
  cases hrunm : m.isRunning with
  | true => exact (animate_of_isRunning m name c now hrunm).2
  | false =>
    set m1 := if m.hasName name then m.stop name else m with hm1
    have hrun1 : m1.isRunning = false := by
      cases hm : m.hasName name <;>
        simp [hm1, hm, AnimationManager.stop, hrunm]
    rw [AnimationManager.animate]
    simp only [← hm1, hrun1, Bool.not_false, if_true]
    rw [AnimationManager.startLoop, AnimationManager.update]
    simp only [Bool.not_true, Bool.false_eq_true, if_false]
    set l2 := m1.animations ++ [(name, startedAnimation name c now)] with hl2
    cases hq : (updatePass now l2).2.2.2 with
    | some e => rfl
    | none =>
      simp only []
      have hmemname : name ∈ (updatePass now l2).1.map Prod.fst := by
        rw [updatePass_keys, hl2]
        simp
      obtain ⟨kv, hkv, hkvname⟩ := List.mem_map.mp hmemname
      have hnotrem : name ∉ (updatePass now l2).2.1 := by
        intro hmem
        obtain ⟨a0, ha0mem, ha0keep⟩ := updatePass_toRemove_mem now l2 name hmem
        have ha0 : a0 = startedAnimation name c now := by
          rw [hl2] at ha0mem
          rcases List.mem_append.mp ha0mem with hin | hin
          · exact absurd rfl (animate_prefix_no_key m name (name, a0) hin)
          · simpa using hin
        obtain ⟨hs1, hs2, hs3⟩ := startedAnimation_state name c now
        have : (a0.update now).keepAlive = true := by
          rw [ha0]
          exact update_keepAlive_of_progress_lt _ now hs1 hs2 (by rw [hs3]; norm_num)
        rw [this] at ha0keep
        exact Bool.noConfusion ha0keep
      have hkvmem : kv ∈ (updatePass now l2).1.filter
          (fun kv => !(updatePass now l2).2.1.contains kv.1) := by
        rw [List.mem_filter]
        refine ⟨hkv, ?_⟩
        simp [hkvname, hnotrem]
      have hnonempty : (updatePass now l2).1.filter
          (fun kv => !(updatePass now l2).2.1.contains kv.1) ≠ [] :=
        List.ne_nil_of_mem hkvmem
      simp
      exact ⟨name, ⟨kv.2, by rw [← hkvname]; simpa using hkv⟩, hnotrem⟩

/-- `NamesNodup` survives one tick of the shared loop. -/
theorem nodup_update (m : AnimationManager) (now : ℤ)
    (h : NamesNodup m) : NamesNodup (m.update now).1 := by
  rw [AnimationManager.update]
  cases hrun : m.isRunning with
  | false => simpa [hrun] using h
  | true =>
    simp only [hrun, Bool.not_true, Bool.false_eq_true, if_false]
    cases hq : (updatePass now m.animations).2.2.2 with
    | some e =>
      simp only []
      show ((updatePass now m.animations).1.map Prod.fst).Nodup
      rw [updatePass_keys]
      exact h
    | none =>
      simp only []
      show (((updatePass now m.animations).1.filter _).map Prod.fst).Nodup
      refine List.Nodup.sublist (List.Sublist.map Prod.fst (List.filter_sublist _)) ?_
      rw [updatePass_keys]
      exact h

/-- Keys are untouched by an entry-wise state update that preserves
first components. -/
theorem keys_map_step (l : List (String × Animation))
    (f : String × Animation → String × Animation)
    (hf : ∀ kv, (f kv).1 = kv.1) :
    (l.map f).map Prod.fst = l.map Prod.fst := by
  rw [List.map_map]
  exact List.map_congr_left fun kv _ => hf kv

/-- `NamesNodup` survives `animate` (replace-then-append). -/
theorem nodup_animate (m : AnimationManager) (name : String)
    (c : AnimationConfig) (now : ℤ) (h : NamesNodup m) :
    NamesNodup (m.animate name c now).1 := by
  set m1 := if m.hasName name then m.stop name else m with hm1
  have hnodup1 : (m1.animations.map Prod.fst).Nodup := by
    cases hm : m.hasName name with
    | true =>
      have hstop : m1 = m.stop name := by rw [hm1, hm]; rfl
      rw [hstop]
      exact List.Nodup.sublist
        (List.Sublist.map Prod.fst (List.filter_sublist _)) h
    | false =>
      have hsame : m1 = m := by rw [hm1, hm]; rfl
      rw [hsame]; exact h
  have hpre : NamesNodup
      { m1 with animations :=
          m1.animations ++ [(name, startedAnimation name c now)] } := by
    show ((m1.animations ++ [(name, startedAnimation name c now)]).map
        Prod.fst).Nodup
    rw [List.map_append]
    refine List.Nodup.append hnodup1 (by simp) ?_
    intro x hx hx2
    simp only [List.map_cons, List.map_nil, List.mem_singleton] at hx2
    obtain ⟨kv, hkv, hkvx⟩ := List.mem_map.mp hx
    exact animate_prefix_no_key m name kv hkv (by rw [hkvx, hx2])
  rw [AnimationManager.animate]
  simp only [← hm1]
  cases hrun2 : ({ m1 with animations :=
      m1.animations ++ [(name, startedAnimation name c now)] }
        : AnimationManager).isRunning with
  | true =>
    simp only [hrun2, Bool.not_true, Bool.false_eq_true, if_false]
    exact hpre
  | false =>
    simp only [hrun2, Bool.not_false, if_true]
    rw [AnimationManager.startLoop]
    exact nodup_update _ now hpre

/-- `NamesNodup` survives `stop`. -/
theorem nodup_stop (m : AnimationManager) (n : String)
    (h : NamesNodup m) : NamesNodup (m.stop n) := by
  show ((m.animations.filter _).map Prod.fst).Nodup
  exact List.Nodup.sublist (List.Sublist.map Prod.fst (List.filter_sublist _)) h

/-- `NamesNodup` survives `pause`. -/
theorem nodup_pause (m : AnimationManager) (n : String) (t : ℤ)
    (h : NamesNodup m) : NamesNodup (m.pause n t) := by
  show ((m.animations.map _).map Prod.fst).Nodup
  rw [keys_map_step]
  · exact h
  · intro kv
    by_cases hkv : kv.1 = n <;> simp [hkv]

/-- `NamesNodup` survives `resume`. -/
theorem nodup_resume (m : AnimationManager) (n : String) (t : ℤ)
    (h : NamesNodup m) : NamesNodup (m.resume n t) := by
  show ((m.animations.map _).map Prod.fst).Nodup
  rw [keys_map_step]
  · exact h
  · intro kv
    by_cases hkv : kv.1 = n <;> simp [hkv]

/-- `NamesNodup` survives `pauseAll`. -/
theorem nodup_pauseAll (m : AnimationManager) (t : ℤ)
    (h : NamesNodup m) : NamesNodup (m.pauseAll t) := by
  show ((m.animations.map _).map Prod.fst).Nodup
  rw [keys_map_step]
  · exact h
  · intro kv
    rfl

/-- `NamesNodup` survives `resumeAll`. -/
theorem nodup_resumeAll (m : AnimationManager) (t : ℤ)
    (h : NamesNodup m) : NamesNodup (m.resumeAll t) := by
  show ((m.animations.map _).map Prod.fst).Nodup
  rw [keys_map_step]
  · exact h
  · intro kv
    rfl

/-- C2: after two sequential `animate` calls with the same name, exactly
one registered animation carries that name — the one built from the
second call's configuration and started at the second call's time.  The
at-most-one-animation-per-name registry invariant is preserved by every
scheduler operation; replacement stops the first instance, and a stopped
animation's update never fires any callback (in particular its
completion callback can never fire once replaced). -/
theorem C2_animate_same_name_replaces (m : AnimationManager)
    (name : String) (c1 c2 : AnimationConfig) (now1 now2 : ℤ)
    (hnodup : NamesNodup m) :
    (((m.animate name c1 now1).1.animate name c2 now2).1.animations.filter
        (fun kv => kv.1 = name))
      = [(name, startedAnimation name c2 now2)] ∧
    NamesNodup ((m.animate name c1 now1).1.animate name c2 now2).1 ∧
    (∀ a : Animation, a.stop.isRunning = false ∧
      ∀ t : ℤ, a.stop.update t = ⟨true, a.stop, [], none⟩) ∧
    (∀ (m' : AnimationManager) (n : String) (c : AnimationConfig) (t : ℤ),
      NamesNodup m' →
        NamesNodup (m'.animate n c t).1 ∧ NamesNodup (m'.stop n) ∧
        NamesNodup (m'.pause n t) ∧ NamesNodup (m'.resume n t) ∧
        NamesNodup m'.stopAll ∧ NamesNodup (m'.pauseAll t) ∧
        NamesNodup (m'.resumeAll t) ∧ NamesNodup (m'.update t).1 ∧
        NamesNodup (m'.startLoop t).1 ∧ NamesNodup m'.destroy) := by
  set mA := (m.animate name c1 now1).1 with hmA
  have hArun : mA.isRunning = true := by
    rw [hmA]; exact animate_isRunning m name c1 now1
  have hAnodup : NamesNodup mA := by
    rw [hmA]; exact nodup_animate m name c1 now1 hnodup
  obtain ⟨hshape, _⟩ := animate_of_isRunning mA name c2 now2 hArun
  refine ⟨?_, nodup_animate mA name c2 now2 hAnodup, ?_, ?_⟩
  · rw [hshape]
    exact filter_key_append _ name _ (animate_prefix_no_key mA name)
  · intro a
    exact ⟨by simp [Animation.stop],
      fun t => update_of_not_running a.stop t (by simp [Animation.stop])⟩
  · intro m' n c t hm'
    refine ⟨nodup_animate m' n c t hm', nodup_stop m' n hm',
      nodup_pause m' n t hm', nodup_resume m' n t hm', ?_,
      nodup_pauseAll m' t hm', nodup_resumeAll m' t hm',
      nodup_update m' t hm', ?_, ?_⟩
    · show (List.map Prod.fst ([] : List (String × Animation))).Nodup
      simp
    · rw [AnimationManager.startLoop]
      exact nodup_update _ t hm'
    · show (List.map Prod.fst ([] : List (String × Animation))).Nodup
      simp

theorem C2_witness :
    ((({} : AnimationManager).animate "x" {} 0).1.animate "x"
        { tag := 9 } 16).1.animations.filter (fun kv => kv.1 = "x")
      = [("x", startedAnimation "x" { tag := 9 } 16)] :=
  (C2_animate_same_name_replaces {} "x" {} { tag := 9 } 0 16
    (by simp [NamesNodup])).1

/-! ## Claim C6 -/

/-- C6: pausing a running animation at `t1` records the elapsed time so
far; resuming at any later `t2` shifts the time origin by the paused
interval, so every subsequent progress and interpolated value equals
that of an animation that was never paused, with the paused interval
excluded from the elapsed time. -/
theorem C6_pause_resume_preserves_progress (a : Animation) (t1 t2 : ℤ)
    (hrun : a.isRunning = true) (hp : a.isPaused = false) (h12 : t1 ≤ t2) :
    ((a.pause t1).resume t2).isRunning = true ∧
    ((a.pause t1).resume t2).isPaused = false ∧
    (a.pause t1).pausedTime = t1 - a.startTime ∧
    ((a.pause t1).resume t2).startTime = a.startTime + (t2 - t1) ∧
    ∀ t : ℤ,
      ((a.pause t1).resume t2).progressAt t = a.progressAt (t - (t2 - t1)) ∧
      ((a.pause t1).resume t2).currentValue t
        = a.currentValue (t - (t2 - t1)) := by
  have hpause : a.pause t1
      = { a with isPaused := true, pausedTime := t1 - a.startTime } := by
    simp [Animation.pause, hrun, hp]
  have hres : (a.pause t1).resume t2
      = { a with isPaused := false,
                 pausedTime := t1 - a.startTime,
                 startTime := t2 - (t1 - a.startTime) } := by
    rw [hpause]
    simp [Animation.resume, hrun]
  have helapsed : ∀ t : ℤ,
      ((a.pause t1).resume t2).elapsedAt t
        = a.elapsedAt (t - (t2 - t1)) := by
    intro t
    rw [hres]
    simp only [Animation.elapsedAt]
    congr 1
    omega
  refine ⟨by simp [hres, hrun], by rw [hres], by rw [hpause],
    by rw [hres]; ring, ?_⟩
  intro t
  have hprog : ((a.pause t1).resume t2).progressAt t
      = a.progressAt (t - (t2 - t1)) := by
    simp only [Animation.progressAt, helapsed t]
    rw [hres]
  refine ⟨hprog, ?_⟩
  simp only [Animation.currentValue, hprog]
  rw [hres]

theorem C6_witness :
    ((runningSample.pause 100).resume 250).currentValue 400
      = runningSample.currentValue 250 :=
  ((C6_pause_resume_preserves_progress runningSample 100 250 rfl rfl
    (by decide)).2.2.2.2 400).2

/-! ## Claim C7 -/

/-- The hit test yields `none` exactly when the query point is strictly
farther than every entity's radius from that entity's center. -/
theorem getProjectAtPosition_eq_none_iff (entities : List Entity)
    (px py : ℝ) :
    getProjectAtPosition entities px py = none ↔
      ∀ e ∈ entities, e.radius < distanceTo px py e := by
  induction entities with
  | nil => simp [getProjectAtPosition]
  | cons e rest ih =>
    rw [getProjectAtPosition]
    by_cases h : distanceTo px py e ≤ e.radius
    · rw [if_pos h]
      constructor
      · intro hc
        exact absurd hc (by simp)
      · intro hall
        exact absurd (hall e (List.mem_cons_self e rest)) (not_lt.mpr h)
    · rw [if_neg h, ih]
      constructor
      · intro hall e2 he2
        rcases List.mem_cons.mp he2 with rfl | hm
        · exact not_le.mp h
        · exact hall e2 hm
      · intro hall e2 he2
        exact hall e2 (List.mem_cons_of_mem _ he2)

/-- A returned entity is the first covering one in iteration order. -/
theorem getProjectAtPosition_eq_some (entities : List Entity)
    (px py : ℝ) (e : Entity) :
    getProjectAtPosition entities px py = some e →
    ∃ pre post, entities = pre ++ e :: post ∧
      distanceTo px py e ≤ e.radius ∧
      ∀ e2 ∈ pre, e2.radius < distanceTo px py e2 := by
  induction entities with
  | nil =>
    intro hc
    simp [getProjectAtPosition] at hc
  | cons e0 rest ih =>
    rw [getProjectAtPosition]
    by_cases h : distanceTo px py e0 ≤ e0.radius
    · rw [if_pos h]
      intro hc
      obtain rfl : e0 = e := Option.some.inj hc
      exact ⟨[], rest, rfl, h, by simp⟩
    · rw [if_neg h]
      intro hc
      obtain ⟨pre, post, heq, hcov, hmiss⟩ := ih hc
      refine ⟨e0 :: pre, post, by rw [heq]; rfl, hcov, ?_⟩
      intro e2 he2
      rcases List.mem_cons.mp he2 with rfl | hm
      · exact not_le.mp h
      · exact hmiss e2 hm

/-- The distance from an entity's center to itself is zero. -/
theorem distanceTo_center (e : Entity) : distanceTo e.cx e.cy e = 0 := by
  simp [distanceTo]

/-- C7: the hit test returns `null` iff the point is strictly outside
every entity; otherwise it returns the first entity in the
caller-supplied iteration order whose distance to the point is at most
its radius; and a point exactly at an entity's center always matches
that entity (distance 0 ≤ radius) and thus always produces a non-null
result. -/
theorem C7_hit_test_characterisation (entities : List Entity)
    (px py : ℝ) :
    (getProjectAtPosition entities px py = none ↔
      ∀ e ∈ entities, e.radius < distanceTo px py e) ∧
    (∀ e : Entity, getProjectAtPosition entities px py = some e →
      ∃ pre post, entities = pre ++ e :: post ∧
        distanceTo px py e ≤ e.radius ∧
        ∀ e2 ∈ pre, e2.radius < distanceTo px py e2) ∧
    (∀ e ∈ entities, 0 ≤ e.radius → px = e.cx → py = e.cy →
      distanceTo px py e ≤ e.radius ∧
      getProjectAtPosition entities px py ≠ none) := by
  refine ⟨getProjectAtPosition_eq_none_iff entities px py,
    fun e => getProjectAtPosition_eq_some entities px py e, ?_⟩
  intro e hmem hrad hx hy
  have hdist : distanceTo px py e = 0 := by
    rw [hx, hy]
    exact distanceTo_center e
  refine ⟨by rw [hdist]; exact hrad, ?_⟩
  intro hnone
  have := (getProjectAtPosition_eq_none_iff entities px py).mp hnone e hmem
  rw [hdist] at this
  exact absurd hrad (not_le.mpr this)

theorem C7_witness :
    distanceTo 0 0 ⟨"p", 0, 0, 30⟩ ≤ (Entity.mk "p" 0 0 30).radius ∧
    getProjectAtPosition [⟨"p", 0, 0, 30⟩] 0 0 ≠ none :=
  (C7_hit_test_characterisation [⟨"p", 0, 0, 30⟩] 0 0).2.2
    ⟨"p", 0, 0, 30⟩ (by simp) (by norm_num) rfl rfl

/-! ## Claim C9 -/

/-- C9: every easing function f satisfies f 0 = 0 and f 1 = 1, and every
function of the monotonic (non-overshoot) families — linear, quad,
cubic, quart, quint, sine, circ, expo, in their In/Out/InOut variants —
satisfies 0 ≤ f t ≤ 1 for all t in the unit interval. -/
theorem C9_easing_endpoints_and_bounds :
    ((Easing.linear 0 = 0 ∧ Easing.linear 1 = 1) ∧
     (Easing.easeInQuad 0 = 0 ∧ Easing.easeInQuad 1 = 1) ∧
     (Easing.easeOutQuad 0 = 0 ∧ Easing.easeOutQuad 1 = 1) ∧
     (Easing.easeInOutQuad 0 = 0 ∧ Easing.easeInOutQuad 1 = 1) ∧
     (Easing.easeInCubic 0 = 0 ∧ Easing.easeInCubic 1 = 1) ∧
     (Easing.easeOutCubic 0 = 0 ∧ Easing.easeOutCubic 1 = 1) ∧
     (Easing.easeInOutCubic 0 = 0 ∧ Easing.easeInOutCubic 1 = 1) ∧
     (Easing.easeInQuart 0 = 0 ∧ Easing.easeInQuart 1 = 1) ∧
     (Easing.easeOutQuart 0 = 0 ∧ Easing.easeOutQuart 1 = 1) ∧
     (Easing.easeInOutQuart 0 = 0 ∧ Easing.easeInOutQuart 1 = 1) ∧
     (Easing.easeInQuint 0 = 0 ∧ Easing.easeInQuint 1 = 1) ∧
     (Easing.easeOutQuint 0 = 0 ∧ Easing.easeOutQuint 1 = 1) ∧
     (Easing.easeInOutQuint 0 = 0 ∧ Easing.easeInOutQuint 1 = 1) ∧
     (Easing.easeInSine 0 = 0 ∧ Easing.easeInSine 1 = 1) ∧
     (Easing.easeOutSine 0 = 0 ∧ Easing.easeOutSine 1 = 1) ∧
     (Easing.easeInOutSine 0 = 0 ∧ Easing.easeInOutSine 1 = 1) ∧
     (Easing.easeInExpo 0 = 0 ∧ Easing.easeInExpo 1 = 1) ∧
     (Easing.easeOutExpo 0 = 0 ∧ Easing.easeOutExpo 1 = 1) ∧
     (Easing.easeInOutExpo 0 = 0 ∧ Easing.easeInOutExpo 1 = 1) ∧
     (Easing.easeInCirc 0 = 0 ∧ Easing.easeInCirc 1 = 1) ∧
     (Easing.easeOutCirc 0 = 0 ∧ Easing.easeOutCirc 1 = 1) ∧
     (Easing.easeInOutCirc 0 = 0 ∧ Easing.easeInOutCirc 1 = 1) ∧
     (Easing.easeInElastic 0 = 0 ∧ Easing.easeInElastic 1 = 1) ∧
     (Easing.easeOutElastic 0 = 0 ∧ Easing.easeOutElastic 1 = 1) ∧
     (Easing.easeInOutElastic 0 = 0 ∧ Easing.easeInOutElastic 1 = 1) ∧
     (Easing.easeInBounce 0 = 0 ∧ Easing.easeInBounce 1 = 1) ∧
     (Easing.easeOutBounce 0 = 0 ∧ Easing.easeOutBounce 1 = 1) ∧
     (Easing.easeInOutBounce 0 = 0 ∧ Easing.easeInOutBounce 1 = 1) ∧
     (Easing.easeInBack 0 = 0 ∧ Easing.easeInBack 1 = 1) ∧
     (Easing.easeOutBack 0 = 0 ∧ Easing.easeOutBack 1 = 1) ∧
     (Easing.easeInOutBack 0 = 0 ∧ Easing.easeInOutBack 1 = 1)) ∧
    (∀ t : ℝ, 0 ≤ t → t ≤ 1 →
      (0 ≤ Easing.linear t ∧ Easing.linear t ≤ 1) ∧
       (0 ≤ Easing.easeInQuad t ∧ Easing.easeInQuad t ≤ 1) ∧
       (0 ≤ Easing.easeOutQuad t ∧ Easing.easeOutQuad t ≤ 1) ∧
       (0 ≤ Easing.easeInOutQuad t ∧ Easing.easeInOutQuad t ≤ 1) ∧
       (0 ≤ Easing.easeInCubic t ∧ Easing.easeInCubic t ≤ 1) ∧
       (0 ≤ Easing.easeOutCubic t ∧ Easing.easeOutCubic t ≤ 1) ∧
       (0 ≤ Easing.easeInOutCubic t ∧ Easing.easeInOutCubic t ≤ 1) ∧
       (0 ≤ Easing.easeInQuart t ∧ Easing.easeInQuart t ≤ 1) ∧
       (0 ≤ Easing.easeOutQuart t ∧ Easing.easeOutQuart t ≤ 1) ∧
       (0 ≤ Easing.easeInOutQuart t ∧ Easing.easeInOutQuart t ≤ 1) ∧
       (0 ≤ Easing.easeInQuint t ∧ Easing.easeInQuint t ≤ 1) ∧
       (0 ≤ Easing.easeOutQuint t ∧ Easing.easeOutQuint t ≤ 1) ∧
       (0 ≤ Easing.easeInOutQuint t ∧ Easing.easeInOutQuint t ≤ 1) ∧
       (0 ≤ Easing.easeInSine t ∧ Easing.easeInSine t ≤ 1) ∧
       (0 ≤ Easing.easeOutSine t ∧ Easing.easeOutSine t ≤ 1) ∧
       (0 ≤ Easing.easeInOutSine t ∧ Easing.easeInOutSine t ≤ 1) ∧
       (0 ≤ Easing.easeInCirc t ∧ Easing.easeInCirc t ≤ 1) ∧
       (0 ≤ Easing.easeOutCirc t ∧ Easing.easeOutCirc t ≤ 1) ∧
       (0 ≤ Easing.easeInOutCirc t ∧ Easing.easeInOutCirc t ≤ 1) ∧
       (0 ≤ Easing.easeInExpo t ∧ Easing.easeInExpo t ≤ 1) ∧
       (0 ≤ Easing.easeOutExpo t ∧ Easing.easeOutExpo t ≤ 1) ∧
       (0 ≤ Easing.easeInOutExpo t ∧ Easing.easeInOutExpo t ≤ 1)) :=
  ⟨⟨Easing.linear_endpoints,
    Easing.easeInQuad_endpoints,
    Easing.easeOutQuad_endpoints,
    Easing.easeInOutQuad_endpoints,
    Easing.easeInCubic_endpoints,
    Easing.easeOutCubic_endpoints,
    Easing.easeInOutCubic_endpoints,
    Easing.easeInQuart_endpoints,
    Easing.easeOutQuart_endpoints,
    Easing.easeInOutQuart_endpoints,
    Easing.easeInQuint_endpoints,
    Easing.easeOutQuint_endpoints,
    Easing.easeInOutQuint_endpoints,
    Easing.easeInSine_endpoints,
    Easing.easeOutSine_endpoints,
    Easing.easeInOutSine_endpoints,
    Easing.easeInExpo_endpoints,
    Easing.easeOutExpo_endpoints,
    Easing.easeInOutExpo_endpoints,
    Easing.easeInCirc_endpoints,
    Easing.easeOutCirc_endpoints,
    Easing.easeInOutCirc_endpoints,
    Easing.easeInElastic_endpoints,
    Easing.easeOutElastic_endpoints,
    Easing.easeInOutElastic_endpoints,
    Easing.easeInBounce_endpoints,
    Easing.easeOutBounce_endpoints,
    Easing.easeInOutBounce_endpoints,
    Easing.easeInBack_endpoints,
    Easing.easeOutBack_endpoints,
    Easing.easeInOutBack_endpoints⟩,
   fun t h0 h1 =>
    ⟨Easing.linear_bounds t h0 h1,
      Easing.easeInQuad_bounds t h0 h1,
      Easing.easeOutQuad_bounds t h0 h1,
      Easing.easeInOutQuad_bounds t h0 h1,
      Easing.easeInCubic_bounds t h0 h1,
      Easing.easeOutCubic_bounds t h0 h1,
      Easing.easeInOutCubic_bounds t h0 h1,
      Easing.easeInQuart_bounds t h0 h1,
      Easing.easeOutQuart_bounds t h0 h1,
      Easing.easeInOutQuart_bounds t h0 h1,
      Easing.easeInQuint_bounds t h0 h1,
      Easing.easeOutQuint_bounds t h0 h1,
      Easing.easeInOutQuint_bounds t h0 h1,
      Easing.easeInSine_bounds t h0 h1,
      Easing.easeOutSine_bounds t h0 h1,
      Easing.easeInOutSine_bounds t h0 h1,
      Easing.easeInCirc_bounds t h0 h1,
      Easing.easeOutCirc_bounds t h0 h1,
      Easing.easeInOutCirc_bounds t h0 h1,
      Easing.easeInExpo_bounds t h0 h1,
      Easing.easeOutExpo_bounds t h0 h1,
      Easing.easeInOutExpo_bounds t h0 h1⟩⟩

theorem C9_witness :
    (0 ≤ Easing.linear (1/2) ∧ Easing.linear (1/2) ≤ 1) ∧
    (0 ≤ Easing.easeInOutCubic (1/2) ∧ Easing.easeInOutCubic (1/2) ≤ 1) :=
  ⟨(C9_easing_endpoints_and_bounds.2 (1/2) (by norm_num) (by norm_num)).1,
   (C9_easing_endpoints_and_bounds.2 (1/2) (by norm_num) (by norm_num)).2.2.2.2.2.2.1⟩

end Nexus
